import Mathlib

/-!
Verification development for the wptsync tool (main.go).

The program is embedded shallowly:

* strings are `List Char` (`Str`), so all path and URL manipulation is
  plain list computation;
* the filesystem is a map from paths to optional file contents
  (`FS := Str -> Option Str`); directories are not modelled, only the
  files the program reads and writes;
* each effectful step whose outcome depends on the outside world
  (HTTP responses, mkdir / temp-file / copy / sync / rename success,
  the external `git apply` tool) is driven by an explicit oracle
  environment; the functions mirror the Go control flow statement by
  statement;
* every externally visible operation is recorded in an action trace,
  which lets us state that an operation (fetch, write, patch) did or
  did not happen.

`filepath.Join` / `filepath.Clean` (the Go standard library functions the
program calls on Unix, where `filepath.FromSlash` is the identity) are
embedded as `goJoin` / `goClean` below, following Go's lexical cleaning
algorithm.
-/

set_option maxHeartbeats 1000000

deriving instance DecidableEq for Except

abbrev Str := List Char

def strL (s : String) : Str := s.toList

abbrev FS := Str → Option Str

/-- Write (create or overwrite) the file at path `p` with content `v`. -/
def fsSet (fs : FS) (p : Str) (v : Str) : FS :=
  fun q => if q = p then some v else fs q

/-- Delete the file at path `p` (os.Remove; no-op here if absent). -/
def fsRemove (fs : FS) (p : Str) : FS :=
  fun q => if q = p then none else fs q

/-- Rename the file at `src` onto `dst` (os.Rename): `dst` receives the
content that was at `src`, and `src` disappears. -/
def fsRename (fs : FS) (src dst : Str) : FS :=
  fun q => if q = dst then fs src else if q = src then none else fs q

/-! ## Go path manipulation (path/filepath on Unix) -/

/-- Split a character list on a separator character, like
`strings.Split`: `splitOnChar '/' "a//b" = ["a", "", "b"]`. -/
def splitOnChar (sep : Char) : Str → List Str
  | [] => [[]]
  | c :: rest =>
    if c = sep then [] :: splitOnChar sep rest
    else
      match splitOnChar sep rest with
      | [] => [[c]]
      | h :: t => (c :: h) :: t

def splitSlash : Str → List Str := splitOnChar '/'

/-- One step of Go `filepath.Clean`'s lexical component processing.
The accumulator is the component stack in reverse (head = innermost).
Empty and `.` components are dropped; `..` pops a non-`..` component,
is dropped at the root of a rooted path, and is kept otherwise. -/
def cleanStep (rooted : Bool) (acc : List Str) (p : Str) : List Str :=
  if p = [] then acc
  else if p = ['.'] then acc
  else if p = ['.', '.'] then
    match acc with
    | [] => if rooted then [] else [['.', '.']]
    | top :: rest => if top = ['.', '.'] then p :: top :: rest else rest
  else p :: acc

def cleanComps (rooted : Bool) (ps : List Str) : List Str :=
  (ps.foldl (cleanStep rooted) []).reverse

/-- `filepath.IsAbs` on Unix: the path starts with a slash. -/
def isAbsPath (p : Str) : Bool :=
  match p with
  | [] => false
  | c :: _ => c = '/'

/-- Go `filepath.Clean` on Unix. -/
def goClean (s : Str) : Str :=
  let rooted := isAbsPath s
  let comps := cleanComps rooted (splitSlash s)
  let body := List.intercalate ['/'] comps
  if rooted then '/' :: body
  else if body = [] then ['.']
  else body

/-- Go `filepath.Join` on Unix: skip leading empty elements, join the
rest (including any later empty elements) with `/`, then `Clean`; all
elements empty gives the empty path. -/
def goJoin (elems : List Str) : Str :=
  match elems.dropWhile (fun e => e = []) with
  | [] => []
  | rest => goClean (List.intercalate ['/'] rest)

/-- `strings.TrimLeft(s, "/")`: drop every leading slash. -/
def trimLeftSlash (s : Str) : Str := s.dropWhile (fun c => c = '/')

/-- `filepath.FromSlash` is the identity on Unix. -/
def fromSlash (s : Str) : Str := s

/-! ## Config model (main.go lines 22-37, 443-451) -/

structure fileSpec where
  src : Str
  dst : Str
  enabled : Option Bool
  patch : Str
deriving DecidableEq

/-- `f.Enabled == nil || *f.Enabled` (main.go lines 35-37). -/
def fileSpec.isEnabled (f : fileSpec) : Bool :=
  match f.enabled with
  | none => true
  | some b => b

structure config where
  commit : Str
  targetDir : Str
  files : List fileSpec
deriving DecidableEq

inductive configError
  | emptyCommit
  | emptyTargetDir
deriving DecidableEq

/-- `config.validate` (main.go lines 443-451): `commit` then
`target_dir` must be non-empty; nothing else is checked. -/
def config.validate (c : config) : Except configError Unit :=
  if c.commit = [] then .error .emptyCommit
  else if c.targetDir = [] then .error .emptyTargetDir
  else .ok ()

/-! ## Effect model -/

inductive SyncAction
  | report (src dest : Str)
  | skipped (src : Str)
  | fetch (url : Str)
  | write (dest : Str)
  | gitApply (patchPath : Str)
deriving DecidableEq

structure Resp where
  status : Nat
  body : Str
deriving DecidableEq

/-- Oracle for one `download` invocation: the HTTP response (`none` for
a transport/request error), whether each filesystem step succeeds, the
name `os.CreateTemp` picks, and `copyFail = some k` meaning `io.Copy`
fails after writing a `k`-byte prefix. -/
structure DlEnv where
  response : Option Resp
  mkdirOk : Bool
  tmpName : Str
  createTempOk : Bool
  copyFail : Option Nat
  syncOk : Bool
  renameOk : Bool

inductive dlError
  | transport
  | statusE (code : Nat)
  | mkdirE
  | createTempE
  | copyE
  | syncE
  | renameE
deriving DecidableEq

/-- Oracle for one `git apply` invocation: whether it exits zero, and
the working-tree transformation it performs when it succeeds. -/
structure PatchEnv where
  gitOk : Bool
  gitFs : FS → FS

inductive patchError
  | notFound
  | wrongFormat
  | applyFailed
deriving DecidableEq

inductive procError
  | downloadE (src : Str) (e : dlError)
  | patchE (patchPath : Str) (e : patchError)
deriving DecidableEq

inductive runError
  | configE (e : configError)
  | procE (e : procError)
deriving DecidableEq

structure Env where
  dl : Str → DlEnv
  patchEnv : Str → PatchEnv

/-! ## download (main.go lines 478-520) -/

/-- `download` (main.go lines 478-520): GET the url; on status 200,
create the destination directory, create a temp file next to `dest`,
copy the body into it, fsync it, and rename it onto `dest`.  The
deferred cleanup closes and removes the temp file on every path (after
a successful rename the remove is a no-op because the temp name is
gone).  Returns the result, the filesystem afterwards, and the trace. -/
def download (env : DlEnv) (url dest : Str) (fs : FS) :
    Except dlError Unit × FS × List SyncAction :=
  match env.response with
  | none => (.error .transport, fs, [.fetch url])
  | some resp =>
    if resp.status = 200 then
      if env.mkdirOk then
        if env.createTempOk then
          let tmp := env.tmpName
          let fs0 := fsSet fs tmp []
          match env.copyFail with
          | some k =>
            (.error .copyE, fsRemove (fsSet fs0 tmp (resp.body.take k)) tmp,
              [.fetch url, .write dest])
          | none =>
            let fs1 := fsSet fs0 tmp resp.body
            if env.syncOk then
              if env.renameOk then
                (.ok (), fsRemove (fsRename fs1 tmp dest) tmp,
                  [.fetch url, .write dest])
              else (.error .renameE, fsRemove fs1 tmp, [.fetch url, .write dest])
            else (.error .syncE, fsRemove fs1 tmp, [.fetch url, .write dest])
        else (.error .createTempE, fs, [.fetch url])
      else (.error .mkdirE, fs, [.fetch url])
    else (.error (.statusE resp.status), fs, [.fetch url])

/-! ## Patch application (main.go lines 522-572) -/

/-- ASCII subset of Go `unicode.IsSpace`, the characters relevant to
`strings.TrimSpace` on patch lines. -/
def isSpaceChar (c : Char) : Bool :=
  c = ' ' || c = '\t' || c = '\n' || c = '\x0b' || c = '\x0c' || c = '\r'

def trimSpace (s : Str) : Str :=
  ((s.dropWhile isSpaceChar).reverse.dropWhile isSpaceChar).reverse

/-- Drop one trailing carriage return, as `bufio.ScanLines` does. -/
def dropCR (s : Str) : Str :=
  match s.reverse with
  | '\r' :: rest => rest.reverse
  | _ => s

/-- The lines a `bufio.Scanner` yields over the file content. -/
def splitLines (s : Str) : List Str :=
  (splitOnChar '\n' s).map dropCR

def beginPatchSentinel : Str := strL "*** Begin Patch"

/-- The scanner loop of `ensureSupportedPatchFormat` (main.go lines
555-565): skip blank lines; the first non-blank line decides.  Returns
`true` when the format is accepted. -/
def scanFormat : List Str → Bool
  | [] => true
  | line :: rest =>
    let t := trimSpace line
    if t = [] then scanFormat rest
    else !(beginPatchSentinel.isPrefixOf t)

/-- `ensureSupportedPatchFormat` (main.go lines 548-572), as a predicate
on the patch file's content. -/
def ensureSupportedPatchFormat (content : Str) : Bool :=
  scanFormat (splitLines content)

/-- The first non-blank line of a list of lines, trimmed. -/
def firstNonBlank : List Str → Option Str
  | [] => none
  | l :: rest =>
    if trimSpace l = [] then firstNonBlank rest
    else some (trimSpace l)

/-- `filepath.IsAbs` resolution of the patch path against the working
root (main.go lines 523-526). -/
def resolvePatch (root patchPath : Str) : Str :=
  if isAbsPath patchPath then patchPath else goJoin [root, patchPath]

/-- `applyPatch` (main.go lines 522-546): resolve the patch path, stat
it, check its format, then run `git apply`; the `gitApply` action marks
the external tool invocation. -/
def applyPatch (penv : Str → PatchEnv) (root patchPath : Str) (fs : FS) :
    Except patchError Unit × FS × List SyncAction :=
  let absPatch := resolvePatch root patchPath
  match fs absPatch with
  | none => (.error .notFound, fs, [])
  | some content =>
    if ensureSupportedPatchFormat content then
      let pe := penv absPatch
      if pe.gitOk then (.ok (), pe.gitFs fs, [.gitApply absPatch])
      else (.error .applyFailed, fs, [.gitApply absPatch])
    else (.error .wrongFormat, fs, [])

/-! ## Sync pipeline (main.go lines 390-476) -/

/-- The request URL built in `processFile` (main.go lines 454-455):
base url, commit, and the source path with leading slashes stripped,
joined by single slashes. -/
def wptRepoRawURL : Str :=
  strL "https://raw.githubusercontent.com/web-platform-tests/wpt"

def fetchURL (commit src : Str) : Str :=
  wptRepoRawURL ++ ['/'] ++ commit ++ ['/'] ++ trimLeftSlash src

/-- The destination path built in `processFile` (main.go line 456). -/
def destPath (root : Str) (cfg : config) (f : fileSpec) : Str :=
  goJoin [root, cfg.targetDir, fromSlash f.dst]

/-- `processFile` (main.go lines 453-476): report the planned action,
stop there on dry-run, otherwise download and then (unless patching is
skipped or no patch is configured) apply the patch.  Errors are wrapped
with the entry's identity exactly as the Go `fmt.Errorf` calls do. -/
def processFile (env : Env) (root : Str) (cfg : config) (file : fileSpec)
    (skipPatching dryRun : Bool) (fs : FS) :
    Except procError Unit × FS × List SyncAction :=
  let src := trimLeftSlash file.src
  let url := fetchURL cfg.commit file.src
  let dest := destPath root cfg file
  let rep : SyncAction := .report src dest
  if dryRun then (.ok (), fs, [rep])
  else
    match download (env.dl url) url dest fs with
    | (.error e, fs1, acts) => (.error (.downloadE src e), fs1, rep :: acts)
    | (.ok _, fs1, acts) =>
      if skipPatching || file.patch.isEmpty then (.ok (), fs1, rep :: acts)
      else
        match applyPatch env.patchEnv root file.patch fs1 with
        | (.error e, fs2, pacts) =>
          (.error (.patchE file.patch e), fs2, rep :: (acts ++ pacts))
        | (.ok _, fs2, pacts) => (.ok (), fs2, rep :: (acts ++ pacts))

/-- The `for _, file := range cfg.Files` loop of `runSync` (main.go
lines 415-423): skip disabled entries with a report, process enabled
ones, and abort on the first error. -/
def runSyncLoop (env : Env) (root : Str) (cfg : config)
    (skipPatching dryRun : Bool) :
    FS → List fileSpec → Except procError Unit × FS × List SyncAction
  | fs, [] => (.ok (), fs, [])
  | fs, f :: rest =>
    if !f.isEnabled then
      match runSyncLoop env root cfg skipPatching dryRun fs rest with
      | (r, fs1, acts) => (r, fs1, .skipped f.src :: acts)
    else
      match processFile env root cfg f skipPatching dryRun fs with
      | (.error e, fs1, acts) => (.error e, fs1, acts)
      | (.ok _, fs1, acts) =>
        match runSyncLoop env root cfg skipPatching dryRun fs1 rest with
        | (r, fs2, acts2) => (r, fs2, acts ++ acts2)

/-- `runSync` (main.go lines 390-426) from the point where the
configuration has been loaded: validate it, report "nothing to sync"
for an empty file list, and otherwise run the loop.  (The "Syncing N
WPT files" header print carries no per-entry information and is not
recorded in the action trace.) -/
def runSync (env : Env) (root : Str) (cfg : config)
    (skipPatching dryRun : Bool) (fs : FS) :
    Except runError Unit × FS × List SyncAction :=
  match cfg.validate with
  | .error e => (.error (.configE e), fs, [])
  | .ok _ =>
    if cfg.files = [] then (.ok (), fs, [])
    else
      match runSyncLoop env root cfg skipPatching dryRun fs cfg.files with
      | (r, fs1, acts) => (r.mapError .procE, fs1, acts)

/-- An action that only reports a plan or a skip, performing no network
or filesystem operation. -/
def planOnly : SyncAction → Bool
  | .report _ _ => true
  | .skipped _ => true
  | _ => false

/-- How `processFile` wraps a `download` error with the entry's (trimmed)
source path (`fmt.Errorf("download %s: %w", src, err)`). -/
def wrapDl (src : Str) : Except dlError Unit → Except procError Unit
  | .error e => .error (.downloadE src e)
  | .ok _ => .ok ()

/-- How `processFile` wraps an `applyPatch` error with the entry's patch
path (`fmt.Errorf("apply patch %s: %w", file.Patch, err)`). -/
def wrapPatch (patchPath : Str) : Except patchError Unit → Except procError Unit
  | .error e => .error (.patchE patchPath e)
  | .ok _ => .ok ()

/-! ## Helper lemmas -/

lemma splitOnChar_ne_nil (sep : Char) (s : Str) : splitOnChar sep s ≠ [] := by
  induction s with
  | nil => simp [splitOnChar]
  | cons c rest ih =>
    by_cases hc : c = sep
    · simp [splitOnChar, hc]
    · simp only [splitOnChar, if_neg hc]
      cases h : splitOnChar sep rest <;> simp

lemma splitOnChar_append (sep : Char) (x y : Str) :
    splitOnChar sep (x ++ sep :: y) = splitOnChar sep x ++ splitOnChar sep y := by
  induction x with
  | nil => simp [splitOnChar]
  | cons c rest ih =>
    by_cases hc : c = sep
    · simp [splitOnChar, hc, ih]
    · have ih' : splitOnChar sep (rest.append (sep :: y)) =
          splitOnChar sep rest ++ splitOnChar sep y := ih
      simp only [List.cons_append, splitOnChar, if_neg hc]
      rw [ih']
      cases h : splitOnChar sep rest with
      | nil => exact absurd h (splitOnChar_ne_nil sep rest)
      | cons a t => simp

lemma cleanStep_nil (rooted : Bool) (acc : List Str) :
    cleanStep rooted acc [] = acc := by
  simp [cleanStep]

lemma foldl_cleanStep_mid_nil (rooted : Bool) (A B : List Str) (acc : List Str) :
    (A ++ [] :: B).foldl (cleanStep rooted) acc =
      (A ++ B).foldl (cleanStep rooted) acc := by
  rw [List.foldl_append, List.foldl_append, List.foldl_cons, cleanStep_nil]

lemma isAbsPath_append_of_ne_nil (p x y : Str) (hp : p ≠ []) :
    isAbsPath (p ++ x) = isAbsPath (p ++ y) := by
  cases p with
  | nil => exact absurd rfl hp
  | cons c r => simp [isAbsPath]

lemma goClean_mid_slash (p y : Str) (hp : p ≠ []) :
    goClean (p ++ '/' :: '/' :: y) = goClean (p ++ '/' :: y) := by
  have habs : isAbsPath (p ++ '/' :: '/' :: y) = isAbsPath (p ++ '/' :: y) :=
    isAbsPath_append_of_ne_nil p _ _ hp
  have hsp : splitSlash (p ++ '/' :: '/' :: y) =
      splitOnChar '/' p ++ [] :: splitOnChar '/' y := by
    show splitOnChar '/' (p ++ '/' :: ('/' :: y)) = _
    rw [splitOnChar_append]
    rfl
  have hsp2 : splitSlash (p ++ '/' :: y) =
      splitOnChar '/' p ++ splitOnChar '/' y := splitOnChar_append '/' p y
  simp only [goClean, hsp, hsp2, habs, cleanComps, foldl_cleanStep_mid_nil]

lemma goClean_trailing_slash (p : Str) (hp : p ≠ []) :
    goClean (p ++ ['/']) = goClean p := by
  have habs : isAbsPath (p ++ ['/']) = isAbsPath (p ++ []) :=
    isAbsPath_append_of_ne_nil p _ _ hp
  rw [List.append_nil] at habs
  have hsp : splitSlash (p ++ ['/']) = splitOnChar '/' p ++ [[]] := by
    show splitOnChar '/' (p ++ '/' :: []) = _
    rw [splitOnChar_append]
    rfl
  have hfold : ∀ (rooted : Bool) (acc : List Str),
      (splitOnChar '/' p ++ [[]]).foldl (cleanStep rooted) acc =
        (splitOnChar '/' p).foldl (cleanStep rooted) acc := by
    intro rooted acc
    rw [List.foldl_append, List.foldl_cons, cleanStep_nil, List.foldl_nil]
  simp only [goClean, hsp, habs, cleanComps, hfold]
  rfl

lemma intercalate3 (a b c : Str) :
    List.intercalate ['/'] [a, b, c] = a ++ '/' :: (b ++ '/' :: c) := by
  simp [List.intercalate, List.intersperse]

lemma intercalate2 (a b : Str) :
    List.intercalate ['/'] [a, b] = a ++ '/' :: b := by
  simp [List.intercalate, List.intersperse]

lemma goJoin3_eq (root td x : Str) (hr : root ≠ []) :
    goJoin [root, td, x] = goClean ((root ++ '/' :: td) ++ '/' :: x) := by
  have hd : List.dropWhile (fun e => e = []) [root, td, x] = [root, td, x] := by
    simp [List.dropWhile_cons, hr]
  simp only [goJoin, hd, intercalate3]
  congr 1
  simp

lemma goJoin2_eq (root td : Str) (hr : root ≠ []) :
    goJoin [root, td] = goClean (root ++ '/' :: td) := by
  have hd : List.dropWhile (fun e => e = []) [root, td] = [root, td] := by
    simp [List.dropWhile_cons, hr]
  simp only [goJoin, hd, intercalate2]

lemma goJoin3_slash (root td d : Str) (hr : root ≠ []) :
    goJoin [root, td, '/' :: d] = goJoin [root, td, d] := by
  rw [goJoin3_eq root td _ hr, goJoin3_eq root td d hr]
  exact goClean_mid_slash (root ++ '/' :: td) d (by simp [hr])

lemma goJoin3_trimLeftSlash (root td : Str) (hr : root ≠ []) :
    ∀ d, goJoin [root, td, trimLeftSlash d] = goJoin [root, td, d] := by
  intro d
  induction d with
  | nil => rfl
  | cons c rest ih =>
    by_cases hc : c = '/'
    · subst hc
      rw [show trimLeftSlash ('/' :: rest) = trimLeftSlash rest from by
            simp [trimLeftSlash, List.dropWhile],
         ih, goJoin3_slash root td rest hr]
    · rw [show trimLeftSlash (c :: rest) = c :: rest from by
            simp [trimLeftSlash, List.dropWhile, hc]]

lemma goJoin3_empty_dst (root td : Str) (hr : root ≠ []) :
    goJoin [root, td, []] = goJoin [root, td] := by
  rw [goJoin3_eq root td [] hr, goJoin2_eq root td hr]
  exact goClean_trailing_slash (root ++ '/' :: td) (by simp [hr])

/-! ## C2 -/

/-- C2: for every configuration, `validate` succeeds iff both `commit`
and `target_dir` are non-empty, and no other field (in particular the
`files` list) affects the result of validation. -/
theorem validate_ok_iff (c : config) :
    (c.validate = .ok () ↔ (c.commit ≠ [] ∧ c.targetDir ≠ [])) ∧
    ∀ fl : List fileSpec,
      (config.mk c.commit c.targetDir fl).validate = c.validate := by
  refine ⟨?_, fun fl => rfl⟩
  unfold config.validate
  by_cases h1 : c.commit = [] <;> by_cases h2 : c.targetDir = [] <;> simp [h1, h2]

/-! ## C1 -/

/-- C1: if `download` fails at any step before the final rename
(transport error, non-200 status, directory creation, temp-file
creation, copy, or sync failure), the destination path is left exactly
as it was — absent or with its pre-existing content — and the temporary
file is removed.  `hfresh` records that `os.CreateTemp` picks a name
that does not yet exist, `hne` that this name differs from `dest`. -/
theorem download_atomic_on_failure (env : DlEnv) (url dest : Str) (fs : FS)
    (e : dlError) (hfresh : fs env.tmpName = none) (hne : env.tmpName ≠ dest)
    (hfail : (download env url dest fs).1 = .error e) (hpre : e ≠ .renameE) :
    (download env url dest fs).2.1 dest = fs dest ∧
    (download env url dest fs).2.1 env.tmpName = none := by
  have hdn : ¬(dest = env.tmpName) := fun h => hne h.symm
  rcases hresp : env.response with _ | r
  · have hd : download env url dest fs = (.error .transport, fs, [.fetch url]) := by
      simp [download, hresp]
    rw [hd]
    exact ⟨rfl, hfresh⟩
  · by_cases h200 : r.status = 200
    · cases hmk : env.mkdirOk with
      | false =>
        have hd : download env url dest fs = (.error .mkdirE, fs, [.fetch url]) := by
          simp [download, hresp, h200, hmk]
        rw [hd]
        exact ⟨rfl, hfresh⟩
      | true =>
        cases hct : env.createTempOk with
        | false =>
          have hd : download env url dest fs =
              (.error .createTempE, fs, [.fetch url]) := by
            simp [download, hresp, h200, hmk, hct]
          rw [hd]
          exact ⟨rfl, hfresh⟩
        | true =>
          rcases hcf : env.copyFail with _ | k
          · cases hsy : env.syncOk with
            | false =>
              have hd : download env url dest fs =
                  (.error .syncE,
                   fsRemove (fsSet (fsSet fs env.tmpName []) env.tmpName r.body)
                     env.tmpName,
                   [.fetch url, .write dest]) := by
                simp [download, hresp, h200, hmk, hct, hcf, hsy]
              rw [hd]
              constructor
              · simp [fsRemove, fsSet, hdn]
              · simp [fsRemove]
            | true =>
              cases hrn : env.renameOk with
              | false =>
                have hd : (download env url dest fs).1 = .error .renameE := by
                  simp [download, hresp, h200, hmk, hct, hcf, hsy, hrn]
                rw [hfail] at hd
                exact absurd (Except.error.inj hd) hpre
              | true =>
                have hd : (download env url dest fs).1 = .ok () := by
                  simp [download, hresp, h200, hmk, hct, hcf, hsy, hrn]
                rw [hfail] at hd
                exact absurd hd (by simp)
          · have hd : download env url dest fs =
                (.error .copyE,
                 fsRemove (fsSet (fsSet fs env.tmpName []) env.tmpName (r.body.take k))
                   env.tmpName,
                 [.fetch url, .write dest]) := by
              simp [download, hresp, h200, hmk, hct, hcf]
            rw [hd]
            constructor
            · simp [fsRemove, fsSet, hdn]
            · simp [fsRemove]
    · have hd : download env url dest fs =
          (.error (.statusE r.status), fs, [.fetch url]) := by
        simp [download, hresp, h200]
      rw [hd]
      exact ⟨rfl, hfresh⟩

/-- C1 witness: a 404 response against a filesystem holding an old
destination file leaves the destination's old content and no temp file. -/
theorem download_atomic_on_failure_witness :
    (fun q : Str => if q = strL "/r/t/a" then some (strL "old") else none)
        (DlEnv.mk (some (Resp.mk 404 (strL "new"))) true (strL "/r/t/.tmp1")
          true none true true).tmpName = none ∧
    (DlEnv.mk (some (Resp.mk 404 (strL "new"))) true (strL "/r/t/.tmp1")
        true none true true).tmpName ≠ strL "/r/t/a" ∧
    (download
        (DlEnv.mk (some (Resp.mk 404 (strL "new"))) true (strL "/r/t/.tmp1")
          true none true true)
        (strL "u") (strL "/r/t/a")
        (fun q : Str => if q = strL "/r/t/a" then some (strL "old") else none)).1 =
      .error (.statusE 404) ∧
    ((download
        (DlEnv.mk (some (Resp.mk 404 (strL "new"))) true (strL "/r/t/.tmp1")
          true none true true)
        (strL "u") (strL "/r/t/a")
        (fun q : Str => if q = strL "/r/t/a" then some (strL "old") else none)).2.1
        (strL "/r/t/a") =
      (fun q : Str => if q = strL "/r/t/a" then some (strL "old") else none)
        (strL "/r/t/a") ∧
     (download
        (DlEnv.mk (some (Resp.mk 404 (strL "new"))) true (strL "/r/t/.tmp1")
          true none true true)
        (strL "u") (strL "/r/t/a")
        (fun q : Str => if q = strL "/r/t/a" then some (strL "old") else none)).2.1
        (DlEnv.mk (some (Resp.mk 404 (strL "new"))) true (strL "/r/t/.tmp1")
          true none true true).tmpName = none) :=
  ⟨by decide, by decide, by decide,
   download_atomic_on_failure _ (strL "u") (strL "/r/t/a") _ (.statusE 404)
     (by decide) (by decide) (by decide) (by decide)⟩

/-! ## Trace shape helpers -/

lemma download_trace (denv : DlEnv) (url dest : Str) (fs : FS) :
    ∃ rest, (download denv url dest fs).2.2 = .fetch url :: rest := by
  rcases hresp : denv.response with _ | r
  · exact ⟨[], by simp [download, hresp]⟩
  · by_cases h200 : r.status = 200
    · cases hmk : denv.mkdirOk
      · exact ⟨[], by simp [download, hresp, h200, hmk]⟩
      · cases hct : denv.createTempOk
        · exact ⟨[], by simp [download, hresp, h200, hmk, hct]⟩
        · rcases hcf : denv.copyFail with _ | k
          · cases hsy : denv.syncOk
            · exact ⟨[.write dest], by simp [download, hresp, h200, hmk, hct, hcf, hsy]⟩
            · cases hrn : denv.renameOk
              · exact ⟨[.write dest],
                  by simp [download, hresp, h200, hmk, hct, hcf, hsy, hrn]⟩
              · exact ⟨[.write dest],
                  by simp [download, hresp, h200, hmk, hct, hcf, hsy, hrn]⟩
          · exact ⟨[.write dest], by simp [download, hresp, h200, hmk, hct, hcf]⟩
    · exact ⟨[], by simp [download, hresp, h200]⟩

lemma processFile_trace (env : Env) (root : Str) (cfg : config) (f : fileSpec)
    (sp : Bool) (fs : FS) :
    ∃ rest, (processFile env root cfg f sp false fs).2.2 =
      .report (trimLeftSlash f.src) (destPath root cfg f) ::
        .fetch (fetchURL cfg.commit f.src) :: rest := by
  obtain ⟨dr, hdr⟩ := download_trace (env.dl (fetchURL cfg.commit f.src))
    (fetchURL cfg.commit f.src) (destPath root cfg f) fs
  rcases hd : download (env.dl (fetchURL cfg.commit f.src))
      (fetchURL cfg.commit f.src) (destPath root cfg f) fs with ⟨r, fs1, acts⟩
  have hacts : acts = .fetch (fetchURL cfg.commit f.src) :: dr := by
    rw [hd] at hdr
    exact hdr
  cases r with
  | error e =>
    refine ⟨dr, ?_⟩
    simp [processFile, hd, hacts]
  | ok u =>
    by_cases hsp2 : (sp || f.patch.isEmpty) = true
    · refine ⟨dr, ?_⟩
      simp [processFile, hd, hacts, hsp2]
    · rcases ha : applyPatch env.patchEnv root f.patch fs1 with ⟨pr, fs2, pacts⟩
      cases pr with
      | error pe =>
        refine ⟨dr ++ pacts, ?_⟩
        simp [processFile, hd, hacts, hsp2, ha]
      | ok pu =>
        refine ⟨dr ++ pacts, ?_⟩
        simp [processFile, hd, hacts, hsp2, ha]

lemma processFile_head (env : Env) (root : Str) (cfg : config) (f : fileSpec)
    (sp dr : Bool) (fs : FS) :
    (processFile env root cfg f sp dr fs).2.2.head? =
      some (.report (trimLeftSlash f.src) (destPath root cfg f)) := by
  cases dr
  · obtain ⟨rest, h⟩ := processFile_trace env root cfg f sp fs
    rw [h]
    rfl
  · simp [processFile]

/-! ## C9 -/

/-- C9: the destination actually used by `processFile` (the one in its
planned-action report) is `join(root, target_dir, dst)`: `dst` is always
resolved relative to `target_dir`, and leading path separators in `dst`
(in particular an absolute `dst`) do not change the destination, so an
absolute `dst` is never honored as an absolute filesystem path. -/
theorem dst_relative_resolution (env : Env) (root : Str) (cfg : config)
    (f : fileSpec) (sp dr : Bool) (fs : FS) (hr : root ≠ []) :
    (processFile env root cfg f sp dr fs).2.2.head? =
      some (.report (trimLeftSlash f.src) (destPath root cfg f)) ∧
    destPath root cfg f = goJoin [root, cfg.targetDir, fromSlash f.dst] ∧
    (∀ d : Str, goJoin [root, cfg.targetDir, '/' :: d] =
      goJoin [root, cfg.targetDir, d]) ∧
    (∀ d : Str, goJoin [root, cfg.targetDir, trimLeftSlash d] =
      goJoin [root, cfg.targetDir, d]) :=
  ⟨processFile_head env root cfg f sp dr fs, rfl,
   fun d => goJoin3_slash root cfg.targetDir d hr,
   fun d => goJoin3_trimLeftSlash root cfg.targetDir hr d⟩

/-- C9 witness: at root `/r`, target dir `t`, an absolute destination
`/etc/x` resolves to the same path as the relative `etc/x`. -/
theorem dst_relative_resolution_witness :
    strL "/r" ≠ [] ∧
    ((processFile (Env.mk (fun _ => DlEnv.mk none true [] true none true true)
          (fun _ => PatchEnv.mk true id))
        (strL "/r") (config.mk (strL "c") (strL "t") [])
        (fileSpec.mk (strL "a.js") (strL "/etc/x") none []) false false
        (fun _ : Str => none)).2.2.head? =
      some (.report (trimLeftSlash (strL "a.js"))
        (destPath (strL "/r") (config.mk (strL "c") (strL "t") [])
          (fileSpec.mk (strL "a.js") (strL "/etc/x") none []))) ∧
     destPath (strL "/r") (config.mk (strL "c") (strL "t") [])
        (fileSpec.mk (strL "a.js") (strL "/etc/x") none []) =
      goJoin [strL "/r", strL "t", fromSlash (strL "/etc/x")] ∧
     (∀ d : Str, goJoin [strL "/r", strL "t", '/' :: d] =
       goJoin [strL "/r", strL "t", d]) ∧
     (∀ d : Str, goJoin [strL "/r", strL "t", trimLeftSlash d] =
       goJoin [strL "/r", strL "t", d])) :=
  ⟨by decide,
   dst_relative_resolution
     (Env.mk (fun _ => DlEnv.mk none true [] true none true true)
       (fun _ => PatchEnv.mk true id))
     (strL "/r") (config.mk (strL "c") (strL "t") [])
     (fileSpec.mk (strL "a.js") (strL "/etc/x") none []) false false
     (fun _ : Str => none) (by decide)⟩

/-! ## C10 -/

/-- C10: per-entry fields are never validated — a configuration with
non-empty `commit` and `target_dir` validates whatever its entries hold;
an entry with empty `src` fetches `{baseURL}/{commit}/` and an entry
with empty `dst` writes to the `target_dir` path itself, and such an
entry is still processed (it is reported and fetched). -/
theorem entry_fields_unvalidated (commit td root : Str)
    (files : List fileSpec) (env : Env) (sp : Bool) (fs : FS)
    (hc : commit ≠ []) (ht : td ≠ []) (hr : root ≠ []) :
    (config.mk commit td files).validate = .ok () ∧
    fetchURL commit [] = wptRepoRawURL ++ ['/'] ++ commit ++ ['/'] ∧
    destPath root (config.mk commit td files) (fileSpec.mk [] [] none []) =
      goJoin [root, td] ∧
    (processFile env root (config.mk commit td files)
        (fileSpec.mk [] [] none []) sp false fs).2.2.take 2 =
      [.report [] (goJoin [root, td]), .fetch (fetchURL commit [])] := by
  have hdest : destPath root (config.mk commit td files)
      (fileSpec.mk [] [] none []) = goJoin [root, td] :=
    goJoin3_empty_dst root td hr
  refine ⟨?_, ?_, hdest, ?_⟩
  · simp [config.validate, hc, ht]
  · simp [fetchURL, trimLeftSlash]
  · obtain ⟨rest, h⟩ := processFile_trace env root (config.mk commit td files)
      (fileSpec.mk [] [] none []) sp fs
    rw [h, hdest]
    rfl

/-- C10 witness: commit `c`, target dir `t`, root `/r`, and an entry
with empty `src` and `dst`. -/
theorem entry_fields_unvalidated_witness :
    strL "c" ≠ [] ∧ strL "t" ≠ [] ∧ strL "/r" ≠ [] ∧
    ((config.mk (strL "c") (strL "t")
        [fileSpec.mk [] [] none []]).validate = .ok () ∧
     fetchURL (strL "c") [] = wptRepoRawURL ++ ['/'] ++ strL "c" ++ ['/'] ∧
     destPath (strL "/r") (config.mk (strL "c") (strL "t")
        [fileSpec.mk [] [] none []]) (fileSpec.mk [] [] none []) =
      goJoin [strL "/r", strL "t"] ∧
     (processFile (Env.mk (fun _ => DlEnv.mk none true [] true none true true)
          (fun _ => PatchEnv.mk true id))
        (strL "/r") (config.mk (strL "c") (strL "t")
          [fileSpec.mk [] [] none []])
        (fileSpec.mk [] [] none []) false false (fun _ : Str => none)).2.2.take 2 =
      [.report [] (goJoin [strL "/r", strL "t"]),
       .fetch (fetchURL (strL "c") [])]) :=
  ⟨by decide, by decide, by decide,
   entry_fields_unvalidated (strL "c") (strL "t") (strL "/r")
     [fileSpec.mk [] [] none []]
     (Env.mk (fun _ => DlEnv.mk none true [] true none true true)
       (fun _ => PatchEnv.mk true id))
     false (fun _ : Str => none) (by decide) (by decide) (by decide)⟩

/-! ## C4 -/

/-- C4: an entry is enabled exactly when `enabled` is absent or true;
a disabled entry (`enabled: false`) contributes only a skip report to
the run — it changes neither the result nor the filesystem, performs
no fetch, write, or patch, and the loop continues with the rest. -/
theorem disabled_entries_skipped (f : fileSpec) :
    (f.isEnabled = false ↔ f.enabled = some false) ∧
    ∀ (env : Env) (root : Str) (cfg : config) (sp dr : Bool) (fs : FS)
      (rest : List fileSpec), f.isEnabled = false →
      ((runSyncLoop env root cfg sp dr fs (f :: rest)).1 =
          (runSyncLoop env root cfg sp dr fs rest).1 ∧
       (runSyncLoop env root cfg sp dr fs (f :: rest)).2.1 =
          (runSyncLoop env root cfg sp dr fs rest).2.1 ∧
       (runSyncLoop env root cfg sp dr fs (f :: rest)).2.2 =
          .skipped f.src :: (runSyncLoop env root cfg sp dr fs rest).2.2) := by
  constructor
  · cases hf : f.enabled with
    | none => simp [fileSpec.isEnabled, hf]
    | some b => cases b <;> simp [fileSpec.isEnabled, hf]
  · intro env root cfg sp dr fs rest hdis
    rcases h : runSyncLoop env root cfg sp dr fs rest with ⟨r, fs1, acts⟩
    have hloop : runSyncLoop env root cfg sp dr fs (f :: rest) =
        (r, fs1, .skipped f.src :: acts) := by
      simp [runSyncLoop, hdis, h]
    rw [hloop]
    exact ⟨rfl, rfl, rfl⟩

/-- C4 witness: an entry with `enabled: false` is skipped and the run
on just that entry behaves like the run on no entries. -/
theorem disabled_entries_skipped_witness :
    (fileSpec.mk (strL "a") (strL "b") (some false) []).isEnabled = false ∧
    ((runSyncLoop (Env.mk (fun _ => DlEnv.mk none true [] true none true true)
          (fun _ => PatchEnv.mk true id))
        (strL "/r") (config.mk (strL "c") (strL "t") []) false false
        (fun _ : Str => none)
        [fileSpec.mk (strL "a") (strL "b") (some false) []]).1 =
      (runSyncLoop (Env.mk (fun _ => DlEnv.mk none true [] true none true true)
          (fun _ => PatchEnv.mk true id))
        (strL "/r") (config.mk (strL "c") (strL "t") []) false false
        (fun _ : Str => none) []).1 ∧
     (runSyncLoop (Env.mk (fun _ => DlEnv.mk none true [] true none true true)
          (fun _ => PatchEnv.mk true id))
        (strL "/r") (config.mk (strL "c") (strL "t") []) false false
        (fun _ : Str => none)
        [fileSpec.mk (strL "a") (strL "b") (some false) []]).2.1 =
      (runSyncLoop (Env.mk (fun _ => DlEnv.mk none true [] true none true true)
          (fun _ => PatchEnv.mk true id))
        (strL "/r") (config.mk (strL "c") (strL "t") []) false false
        (fun _ : Str => none) []).2.1 ∧
     (runSyncLoop (Env.mk (fun _ => DlEnv.mk none true [] true none true true)
          (fun _ => PatchEnv.mk true id))
        (strL "/r") (config.mk (strL "c") (strL "t") []) false false
        (fun _ : Str => none)
        [fileSpec.mk (strL "a") (strL "b") (some false) []]).2.2 =
      .skipped (fileSpec.mk (strL "a") (strL "b") (some false) []).src ::
        (runSyncLoop (Env.mk (fun _ => DlEnv.mk none true [] true none true true)
            (fun _ => PatchEnv.mk true id))
          (strL "/r") (config.mk (strL "c") (strL "t") []) false false
          (fun _ : Str => none) []).2.2) :=
  ⟨by decide,
   (disabled_entries_skipped (fileSpec.mk (strL "a") (strL "b") (some false) [])).2
     (Env.mk (fun _ => DlEnv.mk none true [] true none true true)
       (fun _ => PatchEnv.mk true id))
     (strL "/r") (config.mk (strL "c") (strL "t") []) false false
     (fun _ : Str => none) [] (by decide)⟩

/-! ## C5 -/

lemma runSyncLoop_dry (env : Env) (root : Str) (cfg : config) (sp : Bool) :
    ∀ (l : List fileSpec) (fs0 : FS),
      (runSyncLoop env root cfg sp true fs0 l).2.1 = fs0 ∧
      ∀ a ∈ (runSyncLoop env root cfg sp true fs0 l).2.2, planOnly a = true := by
  intro l
  induction l with
  | nil =>
    intro fs0
    exact ⟨rfl, by intro a ha; simp [runSyncLoop] at ha⟩
  | cons f rest ih =>
    intro fs0
    obtain ⟨ih1, ih2⟩ := ih fs0
    rcases h : runSyncLoop env root cfg sp true fs0 rest with ⟨r, fs1, acts⟩
    rw [h] at ih1 ih2
    by_cases hf : f.isEnabled
    · have hp : processFile env root cfg f sp true fs0 =
          (.ok (), fs0, [.report (trimLeftSlash f.src) (destPath root cfg f)]) := rfl
      have hloop : runSyncLoop env root cfg sp true fs0 (f :: rest) =
          (r, fs1,
           [SyncAction.report (trimLeftSlash f.src) (destPath root cfg f)] ++ acts) := by
        simp [runSyncLoop, hf, hp, h]
      rw [hloop]
      refine ⟨ih1, ?_⟩
      intro a ha
      rcases List.mem_append.mp ha with h1 | h1
      · rcases List.mem_singleton.mp h1 with rfl
        rfl
      · exact ih2 a h1
    · have hloop : runSyncLoop env root cfg sp true fs0 (f :: rest) =
          (r, fs1, .skipped f.src :: acts) := by
        simp [runSyncLoop, hf, h]
      rw [hloop]
      refine ⟨ih1, ?_⟩
      intro a ha
      rcases List.mem_cons.mp ha with h1 | h1
      · rw [h1]
        rfl
      · exact ih2 a h1

/-- C5: with dry-run set, `processFile` succeeds, touches no file,
makes no network request and applies no patch — its only action is the
planned `src -> dest` report line, which is exactly the first action a
non-dry-run invocation would report before acting; over a whole run,
dry-run leaves the filesystem untouched and produces only plan/skip
report actions. -/
theorem dryRun_plan_only (env : Env) (root : Str) (cfg : config)
    (f : fileSpec) (sp : Bool) (fs : FS) :
    (processFile env root cfg f sp true fs).1 = .ok () ∧
    (processFile env root cfg f sp true fs).2.1 = fs ∧
    (processFile env root cfg f sp true fs).2.2 =
      [.report (trimLeftSlash f.src) (destPath root cfg f)] ∧
    (processFile env root cfg f sp false fs).2.2.head? =
      (processFile env root cfg f sp true fs).2.2.head? ∧
    ∀ (l : List fileSpec) (fs0 : FS),
      (runSyncLoop env root cfg sp true fs0 l).2.1 = fs0 ∧
      ∀ a ∈ (runSyncLoop env root cfg sp true fs0 l).2.2, planOnly a = true := by
  refine ⟨rfl, rfl, rfl, ?_, fun l fs0 => runSyncLoop_dry env root cfg sp l fs0⟩
  rw [processFile_head env root cfg f sp false fs,
    processFile_head env root cfg f sp true fs]

/-- C5 witness: one concrete enabled entry under dry-run: success, the
filesystem is returned unchanged, and the only action is the report. -/
theorem dryRun_plan_only_witness :
    (processFile (Env.mk (fun _ => DlEnv.mk none true [] true none true true)
          (fun _ => PatchEnv.mk true id))
        (strL "/r") (config.mk (strL "c") (strL "t") [])
        (fileSpec.mk (strL "a.js") (strL "a.js") none []) false true
        (fun _ : Str => none)).1 = .ok () ∧
    (processFile (Env.mk (fun _ => DlEnv.mk none true [] true none true true)
          (fun _ => PatchEnv.mk true id))
        (strL "/r") (config.mk (strL "c") (strL "t") [])
        (fileSpec.mk (strL "a.js") (strL "a.js") none []) false true
        (fun _ : Str => none)).2.2 =
      [.report (trimLeftSlash (strL "a.js"))
        (destPath (strL "/r") (config.mk (strL "c") (strL "t") [])
          (fileSpec.mk (strL "a.js") (strL "a.js") none []))] ∧
    (runSyncLoop (Env.mk (fun _ => DlEnv.mk none true [] true none true true)
          (fun _ => PatchEnv.mk true id))
        (strL "/r") (config.mk (strL "c") (strL "t") []) false true
        (fun _ : Str => none)
        [fileSpec.mk (strL "a.js") (strL "a.js") none []]).2.1 =
      (fun _ : Str => none) :=
  ⟨(dryRun_plan_only (Env.mk (fun _ => DlEnv.mk none true [] true none true true)
        (fun _ => PatchEnv.mk true id))
      (strL "/r") (config.mk (strL "c") (strL "t") [])
      (fileSpec.mk (strL "a.js") (strL "a.js") none []) false
      (fun _ : Str => none)).1,
   (dryRun_plan_only (Env.mk (fun _ => DlEnv.mk none true [] true none true true)
        (fun _ => PatchEnv.mk true id))
      (strL "/r") (config.mk (strL "c") (strL "t") [])
      (fileSpec.mk (strL "a.js") (strL "a.js") none []) false
      (fun _ : Str => none)).2.2.1,
   ((dryRun_plan_only (Env.mk (fun _ => DlEnv.mk none true [] true none true true)
        (fun _ => PatchEnv.mk true id))
      (strL "/r") (config.mk (strL "c") (strL "t") [])
      (fileSpec.mk (strL "a.js") (strL "a.js") none []) false
      (fun _ : Str => none)).2.2.2.2
      [fileSpec.mk (strL "a.js") (strL "a.js") none []]
      (fun _ : Str => none)).1⟩

/-! ## C3 -/

lemma runSyncLoop_append_ok (env : Env) (root : Str) (cfg : config)
    (sp dr : Bool) :
    ∀ (l1 l2 : List fileSpec) (fs : FS),
      (runSyncLoop env root cfg sp dr fs l1).1 = .ok () →
      runSyncLoop env root cfg sp dr fs (l1 ++ l2) =
        ((runSyncLoop env root cfg sp dr
            (runSyncLoop env root cfg sp dr fs l1).2.1 l2).1,
         (runSyncLoop env root cfg sp dr
            (runSyncLoop env root cfg sp dr fs l1).2.1 l2).2.1,
         (runSyncLoop env root cfg sp dr fs l1).2.2 ++
           (runSyncLoop env root cfg sp dr
             (runSyncLoop env root cfg sp dr fs l1).2.1 l2).2.2) := by
  intro l1
  induction l1 with
  | nil =>
    intro l2 fs h1
    simp [runSyncLoop]
  | cons f rest ih =>
    intro l2 fs h1
    by_cases hf : f.isEnabled
    · rcases hp : processFile env root cfg f sp dr fs with ⟨pr, fs1, a1⟩
      cases pr with
      | error e =>
        exfalso
        have hcontra : (runSyncLoop env root cfg sp dr fs (f :: rest)).1 =
            .error e := by
          simp [runSyncLoop, hf, hp]
        rw [h1] at hcontra
        exact absurd hcontra (by simp)
      | ok u =>
        cases u
        have hcons : ∀ l' : List fileSpec,
            runSyncLoop env root cfg sp dr fs (f :: l') =
              ((runSyncLoop env root cfg sp dr fs1 l').1,
               (runSyncLoop env root cfg sp dr fs1 l').2.1,
               a1 ++ (runSyncLoop env root cfg sp dr fs1 l').2.2) := by
          intro l'
          rcases h' : runSyncLoop env root cfg sp dr fs1 l' with ⟨r', fs', a'⟩
          simp [runSyncLoop, hf, hp, h']
        have h1' : (runSyncLoop env root cfg sp dr fs1 rest).1 = .ok () := by
          rw [hcons rest] at h1
          exact h1
        rw [List.cons_append, hcons (rest ++ l2), ih l2 fs1 h1', hcons rest]
        simp [List.append_assoc]
    · have hcons : ∀ l' : List fileSpec,
          runSyncLoop env root cfg sp dr fs (f :: l') =
            ((runSyncLoop env root cfg sp dr fs l').1,
             (runSyncLoop env root cfg sp dr fs l').2.1,
             .skipped f.src :: (runSyncLoop env root cfg sp dr fs l').2.2) := by
        intro l'
        rcases h' : runSyncLoop env root cfg sp dr fs l' with ⟨r', fs', a'⟩
        simp [runSyncLoop, hf, h']
      have h1' : (runSyncLoop env root cfg sp dr fs rest).1 = .ok () := by
        rw [hcons rest] at h1
        exact h1
      rw [List.cons_append, hcons (rest ++ l2), ih l2 fs h1', hcons rest]
      simp

/-- C3: entries are processed strictly in configuration-list order and
the run is fail-fast: if every entry before `b` went through (skipped or
succeeded) and the enabled entry `b` fails, `runSync` returns exactly
`b`'s error (wrapped with `b`'s identity by `processFile`), the
filesystem is the one `b`'s processing left, and the whole action trace
is the prefix's actions followed by `b`'s — no later entry is ever
fetched, written, or patched. -/
theorem runSync_fail_fast (env : Env) (root : Str) (cfg : config)
    (sp dr : Bool) (fs : FS) (pre : List fileSpec) (b : fileSpec)
    (post : List fileSpec) (e : procError)
    (hfiles : cfg.files = pre ++ b :: post)
    (hval : cfg.validate = .ok ())
    (hpre : (runSyncLoop env root cfg sp dr fs pre).1 = .ok ())
    (hb : b.isEnabled = true)
    (hfail : (processFile env root cfg b sp dr
        (runSyncLoop env root cfg sp dr fs pre).2.1).1 = .error e) :
    (runSync env root cfg sp dr fs).1 = .error (.procE e) ∧
    (runSync env root cfg sp dr fs).2.1 =
      (processFile env root cfg b sp dr
        (runSyncLoop env root cfg sp dr fs pre).2.1).2.1 ∧
    (runSync env root cfg sp dr fs).2.2 =
      (runSyncLoop env root cfg sp dr fs pre).2.2 ++
        (processFile env root cfg b sp dr
          (runSyncLoop env root cfg sp dr fs pre).2.1).2.2 := by
  have hcons : runSyncLoop env root cfg sp dr
      (runSyncLoop env root cfg sp dr fs pre).2.1 (b :: post) =
      processFile env root cfg b sp dr
        (runSyncLoop env root cfg sp dr fs pre).2.1 := by
    rcases hx : processFile env root cfg b sp dr
        (runSyncLoop env root cfg sp dr fs pre).2.1 with ⟨pr, fsx, ax⟩
    rw [hx] at hfail
    simp only at hfail
    cases pr with
    | error e' =>
      simp [runSyncLoop, hb, hx]
    | ok u =>
      exact absurd hfail (by simp)
  have happ := runSyncLoop_append_ok env root cfg sp dr pre (b :: post) fs hpre
  have hne : cfg.files ≠ [] := by
    rw [hfiles]
    simp
  have hrun : runSync env root cfg sp dr fs =
      ((runSyncLoop env root cfg sp dr fs cfg.files).1.mapError .procE,
       (runSyncLoop env root cfg sp dr fs cfg.files).2.1,
       (runSyncLoop env root cfg sp dr fs cfg.files).2.2) := by
    rcases hl : runSyncLoop env root cfg sp dr fs cfg.files with ⟨r, fsl, al⟩
    simp [runSync, hval, hne, hl]
  rw [hfiles] at hrun
  rw [happ, hcons] at hrun
  rw [hrun, hfail]
  exact ⟨rfl, rfl, rfl⟩

/-- C3 witness: of three entries `[a, b, cc]`, `a` downloads fine, `b`
gets a 404: the run stops with `b`'s wrapped error and the trace ends
with `b`'s actions — `cc` is never touched. -/
theorem runSync_fail_fast_witness :
    (config.mk (strL "c") (strL "t")
        [fileSpec.mk (strL "a") (strL "a") none [],
         fileSpec.mk (strL "b") (strL "b") none [],
         fileSpec.mk (strL "cc") (strL "cc") none []]).files =
      [fileSpec.mk (strL "a") (strL "a") none []] ++
        fileSpec.mk (strL "b") (strL "b") none [] ::
          [fileSpec.mk (strL "cc") (strL "cc") none []] ∧
    (runSync (Env.mk
        (fun u => if u = fetchURL (strL "c") (strL "a")
          then DlEnv.mk (some (Resp.mk 200 (strL "x"))) true (strL "/r/t/.tmp")
            true none true true
          else DlEnv.mk (some (Resp.mk 404 [])) true (strL "/r/t/.tmp")
            true none true true)
        (fun _ => PatchEnv.mk true id))
      (strL "/r")
      (config.mk (strL "c") (strL "t")
        [fileSpec.mk (strL "a") (strL "a") none [],
         fileSpec.mk (strL "b") (strL "b") none [],
         fileSpec.mk (strL "cc") (strL "cc") none []])
      false false (fun _ : Str => none)).1 =
      .error (.procE (.downloadE (strL "b") (.statusE 404))) :=
  ⟨rfl,
   (runSync_fail_fast (Env.mk
        (fun u => if u = fetchURL (strL "c") (strL "a")
          then DlEnv.mk (some (Resp.mk 200 (strL "x"))) true (strL "/r/t/.tmp")
            true none true true
          else DlEnv.mk (some (Resp.mk 404 [])) true (strL "/r/t/.tmp")
            true none true true)
        (fun _ => PatchEnv.mk true id))
      (strL "/r")
      (config.mk (strL "c") (strL "t")
        [fileSpec.mk (strL "a") (strL "a") none [],
         fileSpec.mk (strL "b") (strL "b") none [],
         fileSpec.mk (strL "cc") (strL "cc") none []])
      false false (fun _ : Str => none)
      [fileSpec.mk (strL "a") (strL "a") none []]
      (fileSpec.mk (strL "b") (strL "b") none [])
      [fileSpec.mk (strL "cc") (strL "cc") none []]
      (.downloadE (strL "b") (.statusE 404))
      rfl (by decide) (by decide) (by decide) (by decide)).1⟩

/-! ## C6 -/

/-- C6: with `skip-patches` set, `processFile` is exactly the report
plus the download — same result, same filesystem, no patch action at
all, even when the entry's `patch` field is set; without the option the
behaviour is identical for entries with an empty `patch`, and for a
non-empty `patch` the patch is applied exactly once, after the download
succeeded, against the post-write filesystem. -/
theorem skipPatches_spec (env : Env) (root : Str) (cfg : config)
    (f : fileSpec) (fs : FS) :
    processFile env root cfg f true false fs =
      (wrapDl (trimLeftSlash f.src)
        (download (env.dl (fetchURL cfg.commit f.src)) (fetchURL cfg.commit f.src)
          (destPath root cfg f) fs).1,
       (download (env.dl (fetchURL cfg.commit f.src)) (fetchURL cfg.commit f.src)
          (destPath root cfg f) fs).2.1,
       .report (trimLeftSlash f.src) (destPath root cfg f) ::
         (download (env.dl (fetchURL cfg.commit f.src)) (fetchURL cfg.commit f.src)
           (destPath root cfg f) fs).2.2) ∧
    (f.patch = [] →
      processFile env root cfg f false false fs =
        processFile env root cfg f true false fs) ∧
    (f.patch ≠ [] →
      (download (env.dl (fetchURL cfg.commit f.src)) (fetchURL cfg.commit f.src)
          (destPath root cfg f) fs).1 = .ok () →
      processFile env root cfg f false false fs =
        (wrapPatch f.patch
          (applyPatch env.patchEnv root f.patch
            (download (env.dl (fetchURL cfg.commit f.src))
              (fetchURL cfg.commit f.src) (destPath root cfg f) fs).2.1).1,
         (applyPatch env.patchEnv root f.patch
           (download (env.dl (fetchURL cfg.commit f.src))
             (fetchURL cfg.commit f.src) (destPath root cfg f) fs).2.1).2.1,
         .report (trimLeftSlash f.src) (destPath root cfg f) ::
           ((download (env.dl (fetchURL cfg.commit f.src))
               (fetchURL cfg.commit f.src) (destPath root cfg f) fs).2.2 ++
             (applyPatch env.patchEnv root f.patch
               (download (env.dl (fetchURL cfg.commit f.src))
                 (fetchURL cfg.commit f.src) (destPath root cfg f) fs).2.1).2.2))) := by
  rcases hd : download (env.dl (fetchURL cfg.commit f.src))
      (fetchURL cfg.commit f.src) (destPath root cfg f) fs with ⟨r, fs1, a1⟩
  refine ⟨?_, ?_, ?_⟩
  · cases r with
    | error e => simp [processFile, hd, wrapDl]
    | ok u => cases u; simp [processFile, hd, wrapDl]
  · intro hpe
    have hempty : f.patch.isEmpty = true := by
      rw [hpe]; rfl
    cases r with
    | error e => simp [processFile, hd, wrapDl]
    | ok u => cases u; simp [processFile, hd, hempty]
  · intro hpne hok
    simp only at hok
    cases r with
    | error e => exact absurd hok (by simp)
    | ok u =>
      cases u
      have hempty : f.patch.isEmpty = false := by
        cases hp : f.patch with
        | nil => exact absurd hp hpne
        | cons c cs => rfl
      rcases ha : applyPatch env.patchEnv root f.patch fs1 with ⟨pr, fs2, a2⟩
      cases pr with
      | error pe => simp [processFile, hd, hempty, ha, wrapPatch]
      | ok pu => cases pu; simp [processFile, hd, hempty, ha, wrapPatch]

/-- C6 witness: an entry with a configured patch whose download
succeeds; without `skip-patches` the patch runs after the write. -/
theorem skipPatches_spec_witness :
    (fileSpec.mk (strL "a") (strL "a") none (strL "p.patch")).patch ≠ [] ∧
    (download ((Env.mk (fun _ => DlEnv.mk (some (Resp.mk 200 (strL "x"))) true
          (strL "/r/t/.tmp") true none true true)
        (fun _ => PatchEnv.mk true id)).dl
          (fetchURL (strL "c")
            (fileSpec.mk (strL "a") (strL "a") none (strL "p.patch")).src))
        (fetchURL (strL "c")
          (fileSpec.mk (strL "a") (strL "a") none (strL "p.patch")).src)
        (destPath (strL "/r") (config.mk (strL "c") (strL "t") [])
          (fileSpec.mk (strL "a") (strL "a") none (strL "p.patch")))
        (fun _ : Str => none)).1 = .ok () ∧
    processFile (Env.mk (fun _ => DlEnv.mk (some (Resp.mk 200 (strL "x"))) true
          (strL "/r/t/.tmp") true none true true)
        (fun _ => PatchEnv.mk true id))
      (strL "/r") (config.mk (strL "c") (strL "t") [])
      (fileSpec.mk (strL "a") (strL "a") none (strL "p.patch")) false false
      (fun _ : Str => none) =
      (wrapPatch (fileSpec.mk (strL "a") (strL "a") none (strL "p.patch")).patch
        (applyPatch (Env.mk (fun _ => DlEnv.mk (some (Resp.mk 200 (strL "x"))) true
            (strL "/r/t/.tmp") true none true true)
          (fun _ => PatchEnv.mk true id)).patchEnv (strL "/r")
          (fileSpec.mk (strL "a") (strL "a") none (strL "p.patch")).patch
          (download ((Env.mk (fun _ => DlEnv.mk (some (Resp.mk 200 (strL "x"))) true
              (strL "/r/t/.tmp") true none true true)
            (fun _ => PatchEnv.mk true id)).dl
              (fetchURL (strL "c")
                (fileSpec.mk (strL "a") (strL "a") none (strL "p.patch")).src))
            (fetchURL (strL "c")
              (fileSpec.mk (strL "a") (strL "a") none (strL "p.patch")).src)
            (destPath (strL "/r") (config.mk (strL "c") (strL "t") [])
              (fileSpec.mk (strL "a") (strL "a") none (strL "p.patch")))
            (fun _ : Str => none)).2.1).1,
       (applyPatch (Env.mk (fun _ => DlEnv.mk (some (Resp.mk 200 (strL "x"))) true
            (strL "/r/t/.tmp") true none true true)
          (fun _ => PatchEnv.mk true id)).patchEnv (strL "/r")
          (fileSpec.mk (strL "a") (strL "a") none (strL "p.patch")).patch
          (download ((Env.mk (fun _ => DlEnv.mk (some (Resp.mk 200 (strL "x"))) true
              (strL "/r/t/.tmp") true none true true)
            (fun _ => PatchEnv.mk true id)).dl
              (fetchURL (strL "c")
                (fileSpec.mk (strL "a") (strL "a") none (strL "p.patch")).src))
            (fetchURL (strL "c")
              (fileSpec.mk (strL "a") (strL "a") none (strL "p.patch")).src)
            (destPath (strL "/r") (config.mk (strL "c") (strL "t") [])
              (fileSpec.mk (strL "a") (strL "a") none (strL "p.patch")))
            (fun _ : Str => none)).2.1).2.1,
       .report (trimLeftSlash (fileSpec.mk (strL "a") (strL "a") none
           (strL "p.patch")).src)
         (destPath (strL "/r") (config.mk (strL "c") (strL "t") [])
           (fileSpec.mk (strL "a") (strL "a") none (strL "p.patch"))) ::
         ((download ((Env.mk (fun _ => DlEnv.mk (some (Resp.mk 200 (strL "x"))) true
              (strL "/r/t/.tmp") true none true true)
            (fun _ => PatchEnv.mk true id)).dl
              (fetchURL (strL "c")
                (fileSpec.mk (strL "a") (strL "a") none (strL "p.patch")).src))
            (fetchURL (strL "c")
              (fileSpec.mk (strL "a") (strL "a") none (strL "p.patch")).src)
            (destPath (strL "/r") (config.mk (strL "c") (strL "t") [])
              (fileSpec.mk (strL "a") (strL "a") none (strL "p.patch")))
            (fun _ : Str => none)).2.2 ++
           (applyPatch (Env.mk (fun _ => DlEnv.mk (some (Resp.mk 200 (strL "x"))) true
              (strL "/r/t/.tmp") true none true true)
            (fun _ => PatchEnv.mk true id)).patchEnv (strL "/r")
            (fileSpec.mk (strL "a") (strL "a") none (strL "p.patch")).patch
            (download ((Env.mk (fun _ => DlEnv.mk (some (Resp.mk 200 (strL "x"))) true
                (strL "/r/t/.tmp") true none true true)
              (fun _ => PatchEnv.mk true id)).dl
                (fetchURL (strL "c")
                  (fileSpec.mk (strL "a") (strL "a") none (strL "p.patch")).src))
              (fetchURL (strL "c")
                (fileSpec.mk (strL "a") (strL "a") none (strL "p.patch")).src)
              (destPath (strL "/r") (config.mk (strL "c") (strL "t") [])
                (fileSpec.mk (strL "a") (strL "a") none (strL "p.patch")))
              (fun _ : Str => none)).2.1).2.2)) :=
  ⟨by decide, by decide,
   (skipPatches_spec (Env.mk (fun _ => DlEnv.mk (some (Resp.mk 200 (strL "x"))) true
        (strL "/r/t/.tmp") true none true true)
      (fun _ => PatchEnv.mk true id))
     (strL "/r") (config.mk (strL "c") (strL "t") [])
     (fileSpec.mk (strL "a") (strL "a") none (strL "p.patch"))
     (fun _ : Str => none)).2.2 (by decide) (by decide)⟩

/-! ## C7 -/

lemma scanFormat_false_of (ls : List Str) (t : Str)
    (h : firstNonBlank ls = some t)
    (hp : beginPatchSentinel.isPrefixOf t = true) :
    scanFormat ls = false := by
  induction ls with
  | nil => simp [firstNonBlank] at h
  | cons l rest ih =>
    by_cases hb : trimSpace l = []
    · rw [show firstNonBlank (l :: rest) = firstNonBlank rest from by
          simp [firstNonBlank, hb]] at h
      rw [show scanFormat (l :: rest) = scanFormat rest from by
          simp [scanFormat, hb]]
      exact ih h
    · have ht : trimSpace l = t := by
        have := h
        simp [firstNonBlank, hb] at this
        exact this
      rw [show scanFormat (l :: rest) =
          !(beginPatchSentinel.isPrefixOf (trimSpace l)) from by
        simp [scanFormat, hb]]
      rw [ht, hp]
      rfl

/-- C7: a patch file whose first non-blank line (after trimming) begins
with the `*** Begin Patch` sentinel makes `applyPatch` fail with the
wrong-format error, and a patch path that resolves to no existing file
makes it fail with the not-found error; in both cases the external
`git apply` tool is never invoked (the action trace is empty). -/
theorem patch_format_guard (penv : Str → PatchEnv) (root pp : Str) (fs : FS) :
    (∀ content t,
      fs (resolvePatch root pp) = some content →
      firstNonBlank (splitLines content) = some t →
      beginPatchSentinel.isPrefixOf t = true →
      (applyPatch penv root pp fs).1 = .error .wrongFormat ∧
      (applyPatch penv root pp fs).2.2 = []) ∧
    (fs (resolvePatch root pp) = none →
      (applyPatch penv root pp fs).1 = .error .notFound ∧
      (applyPatch penv root pp fs).2.2 = []) := by
  constructor
  · intro content t hc hf hp
    have hscan : ensureSupportedPatchFormat content = false :=
      scanFormat_false_of _ t hf hp
    have hap : applyPatch penv root pp fs = (.error .wrongFormat, fs, []) := by
      simp [applyPatch, hc, hscan]
    rw [hap]
    exact ⟨rfl, rfl⟩
  · intro hn
    have hap : applyPatch penv root pp fs = (.error .notFound, fs, []) := by
      simp [applyPatch, hn]
    rw [hap]
    exact ⟨rfl, rfl⟩

/-- C7 witness: a patch file starting (after a blank line) with
`*** Begin Patch` is rejected as wrong-format without a `git apply`
action, and a missing patch file yields not-found, also without one. -/
theorem patch_format_guard_witness :
    (fun q : Str => if q = resolvePatch (strL "/r") (strL "p.patch")
        then some (strL "\n  *** Begin Patch\nfoo") else none)
      (resolvePatch (strL "/r") (strL "p.patch")) =
      some (strL "\n  *** Begin Patch\nfoo") ∧
    firstNonBlank (splitLines (strL "\n  *** Begin Patch\nfoo")) =
      some (strL "*** Begin Patch") ∧
    beginPatchSentinel.isPrefixOf (strL "*** Begin Patch") = true ∧
    ((applyPatch (fun _ => PatchEnv.mk true id) (strL "/r") (strL "p.patch")
        (fun q : Str => if q = resolvePatch (strL "/r") (strL "p.patch")
          then some (strL "\n  *** Begin Patch\nfoo") else none)).1 =
      .error .wrongFormat ∧
     (applyPatch (fun _ => PatchEnv.mk true id) (strL "/r") (strL "p.patch")
        (fun q : Str => if q = resolvePatch (strL "/r") (strL "p.patch")
          then some (strL "\n  *** Begin Patch\nfoo") else none)).2.2 = []) ∧
    ((applyPatch (fun _ => PatchEnv.mk true id) (strL "/r") (strL "p.patch")
        (fun _ : Str => none)).1 = .error .notFound ∧
     (applyPatch (fun _ => PatchEnv.mk true id) (strL "/r") (strL "p.patch")
        (fun _ : Str => none)).2.2 = []) :=
  ⟨by decide, by decide, by decide,
   (patch_format_guard (fun _ => PatchEnv.mk true id) (strL "/r")
       (strL "p.patch")
       (fun q : Str => if q = resolvePatch (strL "/r") (strL "p.patch")
         then some (strL "\n  *** Begin Patch\nfoo") else none)).1
     (strL "\n  *** Begin Patch\nfoo") (strL "*** Begin Patch")
     (by decide) (by decide) (by decide),
   (patch_format_guard (fun _ => PatchEnv.mk true id) (strL "/r")
       (strL "p.patch") (fun _ : Str => none)).2 (by decide)⟩

/-! ## C8 -/

/-- C8: for an enabled entry the fetch URL is exactly the fixed base
URL, the commit, and the entry's `src` with every leading slash
stripped, joined by single slashes (it is the URL of the fetch action
right after the report); any non-200 response fails the download with
an error carrying the status, and on a 200 response with all write
steps succeeding the response body becomes the destination's content
verbatim. -/
theorem fetch_url_and_status (env : Env) (denv : DlEnv) (root : Str)
    (cfg : config) (f : fileSpec) (sp : Bool) (fs fs0 : FS)
    (url dest : Str) (resp : Resp) :
    (processFile env root cfg f sp false fs).2.2.take 2 =
      [.report (trimLeftSlash f.src) (destPath root cfg f),
       .fetch (wptRepoRawURL ++ ['/'] ++ cfg.commit ++ ['/'] ++
         trimLeftSlash f.src)] ∧
    (denv.response = some resp → resp.status ≠ 200 →
      (download denv url dest fs0).1 = .error (.statusE resp.status)) ∧
    (denv.response = some resp → (download denv url dest fs0).1 = .ok () →
      denv.tmpName ≠ dest →
      (download denv url dest fs0).2.1 dest = some resp.body) := by
  refine ⟨?_, ?_, ?_⟩
  · obtain ⟨rest, h⟩ := processFile_trace env root cfg f sp fs
    rw [h]
    rfl
  · intro hresp h200
    simp [download, hresp, h200]
  · intro hresp hok hne
    have hdn : ¬(dest = denv.tmpName) := fun hx => hne hx.symm
    by_cases h200 : resp.status = 200
    · cases hmk : denv.mkdirOk with
      | false =>
        exfalso
        have hx : (download denv url dest fs0).1 = .error .mkdirE := by
          simp [download, hresp, h200, hmk]
        rw [hok] at hx
        exact absurd hx (by simp)
      | true =>
        cases hct : denv.createTempOk with
        | false =>
          exfalso
          have hx : (download denv url dest fs0).1 = .error .createTempE := by
            simp [download, hresp, h200, hmk, hct]
          rw [hok] at hx
          exact absurd hx (by simp)
        | true =>
          rcases hcf : denv.copyFail with _ | k
          · cases hsy : denv.syncOk with
            | false =>
              exfalso
              have hx : (download denv url dest fs0).1 = .error .syncE := by
                simp [download, hresp, h200, hmk, hct, hcf, hsy]
              rw [hok] at hx
              exact absurd hx (by simp)
            | true =>
              cases hrn : denv.renameOk with
              | false =>
                exfalso
                have hx : (download denv url dest fs0).1 = .error .renameE := by
                  simp [download, hresp, h200, hmk, hct, hcf, hsy, hrn]
                rw [hok] at hx
                exact absurd hx (by simp)
              | true =>
                have hx : download denv url dest fs0 =
                    (.ok (),
                     fsRemove (fsRename
                       (fsSet (fsSet fs0 denv.tmpName []) denv.tmpName resp.body)
                       denv.tmpName dest) denv.tmpName,
                     [.fetch url, .write dest]) := by
                  simp [download, hresp, h200, hmk, hct, hcf, hsy, hrn]
                rw [hx]
                simp [fsRemove, fsRename, fsSet, hdn]
          · exfalso
            have hx : (download denv url dest fs0).1 = .error .copyE := by
              simp [download, hresp, h200, hmk, hct, hcf]
            rw [hok] at hx
            exact absurd hx (by simp)
    · exfalso
      have hx : (download denv url dest fs0).1 = .error (.statusE resp.status) := by
        simp [download, hresp, h200]
      rw [hok] at hx
      exact absurd hx (by simp)

/-- C8 witness: a `src` with two leading slashes is fetched at
`{base}/{commit}/a.js`; a 500 response fails with its status; a 200
response with body `hello` ends with `hello` at the destination. -/
theorem fetch_url_and_status_witness :
    (processFile (Env.mk (fun _ => DlEnv.mk (some (Resp.mk 200 (strL "hello")))
          true (strL "/r/t/.tmp") true none true true)
        (fun _ => PatchEnv.mk true id))
      (strL "/r") (config.mk (strL "c") (strL "t") [])
      (fileSpec.mk (strL "//a.js") (strL "a.js") none []) false false
      (fun _ : Str => none)).2.2.take 2 =
      [.report (trimLeftSlash (strL "//a.js"))
        (destPath (strL "/r") (config.mk (strL "c") (strL "t") [])
          (fileSpec.mk (strL "//a.js") (strL "a.js") none [])),
       .fetch (wptRepoRawURL ++ ['/'] ++ strL "c" ++ ['/'] ++
         trimLeftSlash (strL "//a.js"))] ∧
    (DlEnv.mk (some (Resp.mk 500 [])) true (strL "/r/t/.tmp") true none
        true true).response = some (Resp.mk 500 []) ∧
    (Resp.mk 500 []).status ≠ 200 ∧
    (download (DlEnv.mk (some (Resp.mk 500 [])) true (strL "/r/t/.tmp") true
        none true true) (strL "u") (strL "/r/t/a.js")
      (fun _ : Str => none)).1 = .error (.statusE (Resp.mk 500 []).status) ∧
    (download (DlEnv.mk (some (Resp.mk 200 (strL "hello"))) true
        (strL "/r/t/.tmp") true none true true) (strL "u") (strL "/r/t/a.js")
      (fun _ : Str => none)).1 = .ok () ∧
    (DlEnv.mk (some (Resp.mk 200 (strL "hello"))) true (strL "/r/t/.tmp")
        true none true true).tmpName ≠ strL "/r/t/a.js" ∧
    (download (DlEnv.mk (some (Resp.mk 200 (strL "hello"))) true
        (strL "/r/t/.tmp") true none true true) (strL "u") (strL "/r/t/a.js")
      (fun _ : Str => none)).2.1 (strL "/r/t/a.js") =
      some (Resp.mk 200 (strL "hello")).body :=
  ⟨(fetch_url_and_status (Env.mk (fun _ => DlEnv.mk
        (some (Resp.mk 200 (strL "hello"))) true (strL "/r/t/.tmp") true none
        true true) (fun _ => PatchEnv.mk true id))
      (DlEnv.mk (some (Resp.mk 200 (strL "hello"))) true (strL "/r/t/.tmp")
        true none true true)
      (strL "/r") (config.mk (strL "c") (strL "t") [])
      (fileSpec.mk (strL "//a.js") (strL "a.js") none []) false
      (fun _ : Str => none) (fun _ : Str => none) (strL "u")
      (strL "/r/t/a.js") (Resp.mk 200 (strL "hello"))).1,
   by decide, by decide,
   (fetch_url_and_status (Env.mk (fun _ => DlEnv.mk
        (some (Resp.mk 500 [])) true (strL "/r/t/.tmp") true none true true)
       (fun _ => PatchEnv.mk true id))
      (DlEnv.mk (some (Resp.mk 500 [])) true (strL "/r/t/.tmp") true none
        true true)
      (strL "/r") (config.mk (strL "c") (strL "t") [])
      (fileSpec.mk (strL "//a.js") (strL "a.js") none []) false
      (fun _ : Str => none) (fun _ : Str => none) (strL "u")
      (strL "/r/t/a.js") (Resp.mk 500 [])).2.1 (by decide) (by decide),
   by decide, by decide,
   (fetch_url_and_status (Env.mk (fun _ => DlEnv.mk
        (some (Resp.mk 200 (strL "hello"))) true (strL "/r/t/.tmp") true none
        true true) (fun _ => PatchEnv.mk true id))
      (DlEnv.mk (some (Resp.mk 200 (strL "hello"))) true (strL "/r/t/.tmp")
        true none true true)
      (strL "/r") (config.mk (strL "c") (strL "t") [])
      (fileSpec.mk (strL "//a.js") (strL "a.js") none []) false
      (fun _ : Str => none) (fun _ : Str => none) (strL "u")
      (strL "/r/t/a.js") (Resp.mk 200 (strL "hello"))).2.2
     (by decide) (by decide) (by decide)⟩
